import Mathlib

/-!
Shallow embedding of the label-generator script (`main.py`) and proofs about
its text-wrapping, auto-fit sizing and page-tiling logic.

Conventions of the embedding:
* Python floats are modelled as exact rationals (`ℚ`).
* Python `round(x)` / `round(x, 1)` (round half to even) is modelled by
  `roundEven` / `round1`.
* Python float `//` is floor division, and `int` applied to its result is the
  mathematical floor `⌊·⌋`; Python integer `//` is `Int.fdiv`.
* The orientation strings `"Landscape"` / `"Portrait"` and the page-landscape
  checkbox become `Bool` flags (`true` means landscape).
* `str.split()` (split on whitespace, dropping empty pieces) is `pySplit`,
  written as structural recursion over the character list so that it
  evaluates by `decide`.
* The pixel width measurement `safe_text_width(draw, font, text)` is an
  arbitrary function `width : String → α` into a linear order, since the
  wrapping code only compares measured widths against the budget.
-/

namespace LabelGen

/-- Reportlab's `mm` unit: points per millimeter (72 points per inch,
25.4 mm per inch), from `reportlab.lib.units`. -/
def mm_unit : ℚ := 72 / 25.4

/-- Pixels per millimeter at the script's fixed 96 DPI (`main.py` line 23). -/
def PX_PER_MM : ℚ := 96 / 25.4

/-- Python's `round` to the nearest integer, ties going to the even
integer (banker's rounding), on exact rationals. -/
def roundEven (x : ℚ) : ℤ :=
  let n := ⌊x⌋
  if x - n < 1/2 then n
  else if 1/2 < x - n then n + 1
  else if n % 2 = 0 then n else n + 1

/-- Python's `round(x, 1)`: round to one decimal place, ties to even. -/
def round1 (x : ℚ) : ℚ := (roundEven (10 * x) : ℚ) / 10

/-- A `{"top": …, "bottom": …, "left": …, "right": …}` dictionary of
millimeter values, used for both margins and paddings. -/
structure Margins where
  top : ℚ
  bottom : ℚ
  left : ℚ
  right : ℚ

/-- The pixel dimensions of a composed label image; all the geometry code
reads only `.width` and `.height` of the PIL image. -/
structure ImgSize where
  width : ℕ
  height : ℕ

/-! ### Text splitting and wrapping (`wrap_text_to_width`, lines 101-118) -/

/-- Helper for `pySplit`: walk the characters, accumulating the current word
(in reverse) in `acc`, emitting a word at each whitespace boundary. -/
def splitWordsAux : List Char → List Char → List String
  | [], acc => if acc.isEmpty then [] else [acc.reverse.asString]
  | c :: cs, acc =>
    if c.isWhitespace then
      if acc.isEmpty then splitWordsAux cs []
      else acc.reverse.asString :: splitWordsAux cs []
    else splitWordsAux cs (c :: acc)

/-- Python's `text.split()`: split on runs of whitespace, no empty words. -/
def pySplit (s : String) : List String := splitWordsAux s.data []

/-- Python's `" ".join(l)`: concatenate with single spaces between items. -/
def joinSp : List String → String
  | [] => ""
  | [x] => x
  | x :: y :: t => x ++ " " ++ joinSp (y :: t)

/-- The loop of `wrap_text_to_width` (lines 109-117): `current` is the line
being grown; each further word is appended if the extended line still
measures within the budget, otherwise the line is committed and the word
starts a new line; the last `current` is always committed. -/
def wrapAux {α : Type} [LinearOrder α] (width : String → α) (budget : α) :
    String → List String → List String
  | current, [] => [current]
  | current, w :: ws =>
    if width (current ++ " " ++ w) ≤ budget then
      wrapAux width budget (current ++ " " ++ w) ws
    else
      current :: wrapAux width budget w ws

/-- `wrap_text_to_width(draw, font, text, max_width_px)` (lines 101-118):
greedy word wrap of `text` to the pixel budget `max_width_px`, where
`width` abstracts `safe_text_width(draw, font, ·)`. -/
def wrap_text_to_width {α : Type} [LinearOrder α] (width : String → α)
    (text : String) (max_width_px : α) : List String :=
  match pySplit text with
  | [] => []
  | w :: ws => wrapAux width max_width_px w ws

/-! ### Auto-fit sizing (`compute_label_mm_from_composed`, lines 189-201) -/

/-- `compute_label_mm_from_composed(img, paper_mm, margins, spacing_mm,
orientation)` (lines 189-201): natural size is the image size in mm at
96 DPI plus 4 mm per axis, axes swapped for a landscape label, then each
axis is capped at `max(5, usable_axis - spacing)` and rounded to one
decimal place. -/
def compute_label_mm_from_composed (img : ImgSize) (paper_mm : ℚ × ℚ)
    (margins : Margins) (spacing_mm : ℚ) (landscape : Bool) : ℚ × ℚ :=
  let w0 : ℚ := (img.width : ℚ) / PX_PER_MM + 4
  let h0 : ℚ := (img.height : ℚ) / PX_PER_MM + 4
  let w_mm := if landscape then h0 else w0
  let h_mm := if landscape then w0 else h0
  let usable_w := paper_mm.1 - margins.left - margins.right
  let usable_h := paper_mm.2 - margins.top - margins.bottom
  (round1 (min w_mm (max 5 (usable_w - spacing_mm))),
   round1 (min h_mm (max 5 (usable_h - spacing_mm))))

/-! ### PDF tiling (`generate_pdf`, lines 206-251) -/

/-- The tiling geometry produced by `generate_pdf`: grid extents and, for
each column `c` / row `r`, the cell origin `(x, y)` in PDF points
(bottom-up y axis) and the image corner after padding. -/
structure PdfLayout where
  cols : ℤ
  rows : ℤ
  cellX : ℤ → ℚ
  cellY : ℤ → ℚ
  imgX : ℤ → ℚ
  imgY : ℤ → ℚ

/-- The geometry of `generate_pdf(label_img, label_mm, paper_mm, margins_mm,
spacing_mm, padding_mm, label_orientation, page_landscape)` (lines
206-251): mm inputs scaled to points by `mm_unit`; `cols`/`rows` are
`max(1, int((usable + spacing) // (label + spacing)))`; the cell at
row `r`, column `c` has `x = m_left + c*(lw+sp)` and
`y = (ph - m_top - lh) - r*(lh+sp)` in the PDF's bottom-up frame; the
image is drawn at `(x + p_left, y + p_bottom)`. -/
def generate_pdf (label_mm paper_mm : ℚ × ℚ) (margins_mm : Margins)
    (spacing_mm : ℚ) (padding_mm : Margins)
    (label_landscape page_landscape : Bool) : PdfLayout :=
  let lw := if label_landscape then label_mm.2 else label_mm.1
  let lh := if label_landscape then label_mm.1 else label_mm.2
  let pw := if page_landscape then paper_mm.2 else paper_mm.1
  let ph := if page_landscape then paper_mm.1 else paper_mm.2
  let lw_pt := lw * mm_unit
  let lh_pt := lh * mm_unit
  let pw_pt := pw * mm_unit
  let ph_pt := ph * mm_unit
  let spacing_pt := spacing_mm * mm_unit
  let usable_w := pw_pt - margins_mm.left * mm_unit - margins_mm.right * mm_unit
  let usable_h := ph_pt - margins_mm.top * mm_unit - margins_mm.bottom * mm_unit
  let start_x := margins_mm.left * mm_unit
  let start_y := ph_pt - margins_mm.top * mm_unit - lh_pt
  { cols := max 1 ⌊(usable_w + spacing_pt) / (lw_pt + spacing_pt)⌋
    rows := max 1 ⌊(usable_h + spacing_pt) / (lh_pt + spacing_pt)⌋
    cellX := fun c => start_x + c * (lw_pt + spacing_pt)
    cellY := fun r => start_y - r * (lh_pt + spacing_pt)
    imgX := fun c => start_x + c * (lw_pt + spacing_pt) + padding_mm.left * mm_unit
    imgY := fun r => start_y - r * (lh_pt + spacing_pt) + padding_mm.bottom * mm_unit }

/-! ### Bitmap preview tiling (`generate_pdf_preview`, lines 253-294) -/

/-- The preview's mm→px scale (lines 259-260): `max_px / max(pw, ph)`
clamped into `[2, 12]`. -/
def previewScale (pw ph max_px : ℚ) : ℚ := min (max (max_px / max pw ph) 2) 12

/-- The preview's `mm_to_px` (line 262): `int(round(mm * scale))`. -/
def mmToPx (scale mm : ℚ) : ℤ := roundEven (mm * scale)

/-- The tiling geometry produced by `generate_pdf_preview`: grid extents and
the top-left corner of each cell in preview pixels (top-down y axis),
plus the padded inner corner where the label image region starts. -/
structure PreviewLayout where
  cols : ℤ
  rows : ℤ
  cellX : ℤ → ℤ
  cellY : ℤ → ℤ
  innerX : ℤ → ℤ
  innerY : ℤ → ℤ

/-- The geometry of `generate_pdf_preview(label_img, label_mm, paper_mm,
margins_mm, spacing_mm, padding_mm, label_orientation, max_px,
page_landscape)` (lines 253-294): every mm quantity is converted to
pixels by `mm_to_px`; `cols`/`rows` are
`max(1, (usable + sp) // (label + sp))` over integers; the cell at row
`r`, column `c` is drawn with top-left corner `x = ml + c*(lw_px+sp)`,
`y = mt + r*(lh_px+sp)`, and its padded inner corner is
`(x + pl, y + pt)`. -/
def generate_pdf_preview (label_mm paper_mm : ℚ × ℚ) (margins_mm : Margins)
    (spacing_mm : ℚ) (padding_mm : Margins) (label_landscape : Bool)
    (max_px : ℚ) (page_landscape : Bool) : PreviewLayout :=
  let lw := if label_landscape then label_mm.2 else label_mm.1
  let lh := if label_landscape then label_mm.1 else label_mm.2
  let pw := if page_landscape then paper_mm.2 else paper_mm.1
  let ph := if page_landscape then paper_mm.1 else paper_mm.2
  let scale := previewScale pw ph max_px
  let pw_px := mmToPx scale pw
  let ph_px := mmToPx scale ph
  let lw_px := mmToPx scale lw
  let lh_px := mmToPx scale lh
  let mt := mmToPx scale margins_mm.top
  let mb := mmToPx scale margins_mm.bottom
  let ml := mmToPx scale margins_mm.left
  let mr := mmToPx scale margins_mm.right
  let pl := mmToPx scale padding_mm.left
  let pt := mmToPx scale padding_mm.top
  let sp := mmToPx scale spacing_mm
  let usable_w := pw_px - ml - mr
  let usable_h := ph_px - mt - mb
  { cols := max 1 (Int.fdiv (usable_w + sp) (lw_px + sp))
    rows := max 1 (Int.fdiv (usable_h + sp) (lh_px + sp))
    cellX := fun c => ml + c * (lw_px + sp)
    cellY := fun r => mt + r * (lh_px + sp)
    innerX := fun c => ml + c * (lw_px + sp) + pl
    innerY := fun r => mt + r * (lh_px + sp) + pt }

/-! ### The Generate button handler (lines 347-360) -/

/-- The `if generate_btn:` block (lines 347-360). The stored session image
`st.session_state["label_img"]` is the `Option α` argument; `compose`
abstracts the barcode rendering plus `compose_label_image_wrapped`.
Python guards with `if not code_input.strip():`, i.e. the error branch is
taken exactly when every character of the code input is whitespace; the
returned flag is `true` when the inline error was shown (and the session
image left untouched), `false` when a new composed image was stored. -/
def generate_label_handler {α : Type} (compose : String → String → α)
    (code_input description : String) (session : Option α) : Option α × Bool :=
  if code_input.data.all Char.isWhitespace then (session, true)
  else (some (compose code_input description), false)

/-! ### Lemmas about `joinSp`, `pySplit` and `wrapAux` -/

lemma joinSp_cons_of_ne_nil (x : String) {l : List String} (h : l ≠ []) :
    joinSp (x :: l) = x ++ " " ++ joinSp l := by
  cases l with
  | nil => exact absurd rfl h
  | cons y t => rfl

lemma joinSp_head_append (a b : String) (t : List String) :
    joinSp ((a ++ " " ++ b) :: t) = a ++ " " ++ joinSp (b :: t) := by
  cases t with
  | nil => rfl
  | cons y tt =>
    show (a ++ " " ++ b) ++ " " ++ joinSp (y :: tt) =
      a ++ " " ++ (b ++ " " ++ joinSp (y :: tt))
    simp only [String.append_assoc]

lemma wrapAux_ne_nil {α : Type} [LinearOrder α] (width : String → α) (budget : α)
    (cur : String) (ws : List String) : wrapAux width budget cur ws ≠ [] := by
  induction ws generalizing cur with
  | nil => simp [wrapAux]
  | cons w ws ih =>
    simp only [wrapAux]
    split
    · exact ih _
    · simp

lemma wrapAux_joinSp {α : Type} [LinearOrder α] (width : String → α) (budget : α)
    (ws : List String) (cur : String) :
    joinSp (wrapAux width budget cur ws) = joinSp (cur :: ws) := by
  induction ws generalizing cur with
  | nil => rfl
  | cons w ws ih =>
    simp only [wrapAux]
    split
    · rw [ih, joinSp_head_append]
      rfl
    · rw [joinSp_cons_of_ne_nil cur (wrapAux_ne_nil width budget w ws), ih]
      rfl

lemma asString_data (l : List Char) : (l.asString).data = l := rfl

lemma splitWordsAux_mem (cs : List Char) : ∀ acc : List Char,
    (∀ c ∈ acc, ¬ c.isWhitespace) →
    ∀ w ∈ splitWordsAux cs acc, w.data ≠ [] ∧ ∀ c ∈ w.data, ¬ c.isWhitespace := by
  induction cs with
  | nil =>
    intro acc hacc w hw
    simp only [splitWordsAux] at hw
    split at hw
    · simp at hw
    · next hne =>
      simp only [List.mem_singleton] at hw
      subst hw
      refine ⟨?_, ?_⟩
      · simp only [asString_data]
        simpa [List.isEmpty_iff] using hne
      · intro c hc
        rw [asString_data] at hc
        exact hacc c (List.mem_reverse.mp hc)
  | cons c cs ih =>
    intro acc hacc w hw
    simp only [splitWordsAux] at hw
    by_cases hws : c.isWhitespace
    · rw [if_pos hws] at hw
      split at hw
      · exact ih [] (by simp) w hw
      · next hne =>
        rcases List.mem_cons.mp hw with rfl | hmem
        · refine ⟨?_, ?_⟩
          · simp only [asString_data]
            simpa [List.isEmpty_iff] using hne
          · intro d hd
            rw [asString_data] at hd
            exact hacc d (List.mem_reverse.mp hd)
        · exact ih [] (by simp) w hmem
    · rw [if_neg hws] at hw
      refine ih (c :: acc) ?_ w hw
      intro d hd
      rcases List.mem_cons.mp hd with rfl | hmem
      · exact hws
      · exact hacc d hmem

lemma mem_pySplit {s w : String} (hw : w ∈ pySplit s) :
    w.data ≠ [] ∧ ∀ c ∈ w.data, ¬ c.isWhitespace :=
  splitWordsAux_mem s.data [] (by simp) w hw

lemma splitWordsAux_nonws : ∀ cs : List Char, (∀ c ∈ cs, ¬ c.isWhitespace) →
    ∀ acc : List Char, acc ≠ [] ∨ cs ≠ [] →
    splitWordsAux cs acc = [(acc.reverse ++ cs).asString] := by
  intro cs
  induction cs with
  | nil =>
    intro _ acc hne
    have hacc : acc ≠ [] := by tauto
    simp [splitWordsAux, List.isEmpty_iff, hacc]
  | cons c cs ih =>
    intro hcs acc _
    have hc : ¬ c.isWhitespace := hcs c (List.mem_cons_self c cs)
    simp only [splitWordsAux, if_neg hc]
    rw [ih (fun d hd => hcs d (List.mem_cons_of_mem c hd)) (c :: acc) (Or.inl (by simp))]
    simp [List.append_assoc]

lemma pySplit_of_word {w : String} (h1 : w.data ≠ [])
    (h2 : ∀ c ∈ w.data, ¬ c.isWhitespace) : pySplit w = [w] := by
  unfold pySplit
  rw [splitWordsAux_nonws w.data h2 [] (Or.inr h1)]
  rfl

lemma wrapAux_mem_le_or {α : Type} [LinearOrder α] (width : String → α) (budget : α)
    (ws : List String) (cur l : String) (hl : l ∈ wrapAux width budget cur ws) :
    width l ≤ budget ∨ l = cur ∨ l ∈ ws := by
  induction ws generalizing cur with
  | nil =>
    simp only [wrapAux, List.mem_singleton] at hl
    exact Or.inr (Or.inl hl)
  | cons w ws ih =>
    simp only [wrapAux] at hl
    split at hl
    · next h =>
      rcases ih _ hl with h1 | h2 | h3
      · exact Or.inl h1
      · exact Or.inl (h2 ▸ h)
      · exact Or.inr (Or.inr (List.mem_cons_of_mem w h3))
    · rcases List.mem_cons.mp hl with rfl | hmem
      · exact Or.inr (Or.inl rfl)
      · rcases ih _ hmem with h1 | h2 | h3
        · exact Or.inl h1
        · exact Or.inr (Or.inr (h2 ▸ List.mem_cons_self w ws))
        · exact Or.inr (Or.inr (List.mem_cons_of_mem w h3))

lemma wrap_mem_le_or_word {α : Type} [LinearOrder α] (width : String → α)
    (text : String) (budget : α) (l : String)
    (hl : l ∈ wrap_text_to_width width text budget) :
    width l ≤ budget ∨ l ∈ pySplit text := by
  unfold wrap_text_to_width at hl
  rcases hsp : pySplit text with _ | ⟨w, ws⟩ <;> rw [hsp] at hl
  · simp at hl
  · rcases wrapAux_mem_le_or width budget ws w l hl with h1 | h2 | h3
    · exact Or.inl h1
    · exact Or.inr (h2 ▸ List.mem_cons_self w ws)
    · exact Or.inr (List.mem_cons_of_mem w h3)

/-! ### Claim C3: wrapping preserves the words -/

/-- C3: for every width measurement, description string and budget,
concatenating the lines returned by `wrap_text_to_width` with single
spaces reproduces the whitespace-normalized input
(`" ".join(text.split())`, exactly the normalization applied to the
description at `main.py` line 132): no word is dropped, duplicated or
reordered, even when a single word alone exceeds the budget. Proved
without any positivity assumption on the budget, which covers the
claimed case of a positive pixel budget. -/
theorem wrap_join_eq_normalized {α : Type} [LinearOrder α] (width : String → α)
    (text : String) (budget : α) :
    joinSp (wrap_text_to_width width text budget) = joinSp (pySplit text) := by
  unfold wrap_text_to_width
  rcases hsp : pySplit text with _ | ⟨w, ws⟩
  · rfl
  · rw [wrapAux_joinSp]

/-! ### Claim C9: the "A B C D" two-words-per-line example -/

/-- C9: for any width measurement and budget under which "A B" and "C D"
fit but "A B C" does not, wrapping the description "A B C D" yields
exactly the two lines ["A B", "C D"]. -/
theorem wrap_ABCD_two_lines {α : Type} [LinearOrder α] (width : String → α)
    (budget : α) (h1 : width "A B" ≤ budget) (h2 : ¬ width "A B C" ≤ budget)
    (h3 : width "C D" ≤ budget) :
    wrap_text_to_width width "A B C D" budget = ["A B", "C D"] := by
  have hs : pySplit "A B C D" = ["A", "B", "C", "D"] := by decide
  have e1 : ("A" : String) ++ " " ++ "B" = "A B" := rfl
  unfold wrap_text_to_width
  rw [hs]
  show wrapAux width budget "A" ["B", "C", "D"] = ["A B", "C D"]
  rw [wrapAux, e1, if_pos h1]
  have e2 : ("A B" : String) ++ " " ++ "C" = "A B C" := rfl
  rw [wrapAux, e2, if_neg h2]
  have e3 : ("C" : String) ++ " " ++ "D" = "C D" := rfl
  rw [wrapAux, e3, if_pos h3]
  rfl

/-- Witness for C9 at the concrete measurement `String.length` with
budget 3: "A B" and "C D" measure 3, "A B C" measures 5. -/
theorem wrap_ABCD_two_lines_witness :
    wrap_text_to_width (fun s => s.length) "A B C D" (3 : ℕ) = ["A B", "C D"] :=
  wrap_ABCD_two_lines (fun s => s.length) 3 (by decide) (by decide) (by decide)

/-! ### Claim C10: only single-word lines may exceed the budget -/

/-- C10: every line returned by `wrap_text_to_width` that consists of two
or more words (as re-split by `text.split()`) measures within the pixel
budget; equivalently only a line that is a lone word may exceed it,
because a word is appended to the current line only after the extended
line was checked against the budget. -/
theorem wrap_multiword_within_budget {α : Type} [LinearOrder α]
    (width : String → α) (text : String) (budget : α) (l : String)
    (hmem : l ∈ wrap_text_to_width width text budget)
    (hwords : 2 ≤ (pySplit l).length) : width l ≤ budget := by
  rcases wrap_mem_le_or_word width text budget l hmem with hle | hword
  · exact hle
  · obtain ⟨hne, hnws⟩ := mem_pySplit hword
    rw [pySplit_of_word hne hnws] at hwords
    simp at hwords

/-- Witness for C10: with measurement `String.length` and budget 3, the
line "a b" of `wrap_text_to_width "a b c d"` has two words and indeed
measures within the budget. -/
theorem wrap_multiword_within_budget_witness : ("a b" : String).length ≤ 3 :=
  wrap_multiword_within_budget (fun s => s.length) "a b c d" 3 "a b"
    (by decide) (by decide)

/-! ### Claim C7: line count is monotone in the budget -/

/-- Joint invariant for the two greedy runs at budgets `b1 ≤ b2` over the
same remaining words. Part one: if the larger-budget run's current line
is a word-suffix of the smaller-budget run's current line, it produces
no more lines. Part two: from arbitrary current lines it produces at
most one extra line. -/
lemma wrapAux_length_mono_aux {α : Type} [LinearOrder α] (width : String → α)
    (b1 b2 : α) (hw : ∀ s t : String, width t ≤ width (s ++ t)) (hb : b1 ≤ b2) :
    ∀ ws : List String,
      (∀ cur1 cur2 : String, (cur1 = cur2 ∨ ∃ s, cur1 = s ++ " " ++ cur2) →
        (wrapAux width b2 cur2 ws).length ≤ (wrapAux width b1 cur1 ws).length) ∧
      (∀ cur1 cur2 : String,
        (wrapAux width b2 cur2 ws).length ≤ (wrapAux width b1 cur1 ws).length + 1) := by
  intro ws
  induction ws with
  | nil =>
    constructor
    · intro cur1 cur2 _
      simp [wrapAux]
    · intro cur1 cur2
      simp [wrapAux]
  | cons w ws ih =>
    obtain ⟨A, B⟩ := ih
    constructor
    · intro cur1 cur2 hrel
      have hwid : width (cur2 ++ " " ++ w) ≤ width (cur1 ++ " " ++ w) := by
        rcases hrel with rfl | ⟨s, rfl⟩
        · exact le_refl _
        · have h := hw (s ++ " ") (cur2 ++ " " ++ w)
          have e : (s ++ " ") ++ (cur2 ++ " " ++ w) = (s ++ " " ++ cur2) ++ " " ++ w := by
            simp only [String.append_assoc]
          rwa [e] at h
      simp only [wrapAux]
      by_cases h1 : width (cur1 ++ " " ++ w) ≤ b1
      · have h2 : width (cur2 ++ " " ++ w) ≤ b2 := le_trans (le_trans hwid h1) hb
        rw [if_pos h1, if_pos h2]
        apply A
        rcases hrel with rfl | ⟨s, rfl⟩
        · exact Or.inl rfl
        · refine Or.inr ⟨s, ?_⟩
          simp only [String.append_assoc]
      · rw [if_neg h1]
        by_cases h2 : width (cur2 ++ " " ++ w) ≤ b2
        · rw [if_pos h2]
          simp only [List.length_cons]
          exact B w (cur2 ++ " " ++ w)
        · rw [if_neg h2]
          simp only [List.length_cons]
          have h := A w w (Or.inl rfl)
          omega
    · intro cur1 cur2
      simp only [wrapAux]
      by_cases h2 : width (cur2 ++ " " ++ w) ≤ b2
      · rw [if_pos h2]
        by_cases h1 : width (cur1 ++ " " ++ w) ≤ b1
        · rw [if_pos h1]
          exact B (cur1 ++ " " ++ w) (cur2 ++ " " ++ w)
        · rw [if_neg h1]
          simp only [List.length_cons]
          have h := B w (cur2 ++ " " ++ w)
          omega
      · rw [if_neg h2]
        by_cases h1 : width (cur1 ++ " " ++ w) ≤ b1
        · rw [if_pos h1]
          have h := A (cur1 ++ " " ++ w) w (Or.inr ⟨cur1, rfl⟩)
          simp only [List.length_cons]
          omega
        · rw [if_neg h1]
          simp only [List.length_cons]
          have h := A w w (Or.inl rfl)
          omega

/-- C7: for a fixed text and a fixed width measurement that is monotone
under prepending (dropping a leading segment never increases the
measured width — the property true of any real text measurement), the
number of lines produced by `wrap_text_to_width` at a smaller budget is
at least the number produced at a larger budget. -/
theorem wrap_line_count_mono {α : Type} [LinearOrder α] (width : String → α)
    (text : String) (b1 b2 : α)
    (hw : ∀ s t : String, width t ≤ width (s ++ t)) (hb : b1 ≤ b2) :
    (wrap_text_to_width width text b2).length ≤
      (wrap_text_to_width width text b1).length := by
  unfold wrap_text_to_width
  rcases pySplit text with _ | ⟨w, ws⟩
  · exact le_refl _
  · exact (wrapAux_length_mono_aux width b1 b2 hw hb ws).1 w w (Or.inl rfl)

/-- Witness for C7 at the measurement `String.length`, text "a b c",
budgets 1 ≤ 5: the wider budget yields no more lines. -/
theorem wrap_line_count_mono_witness :
    (wrap_text_to_width (fun s => s.length) "a b c" (5 : ℕ)).length ≤
      (wrap_text_to_width (fun s => s.length) "a b c" (1 : ℕ)).length :=
  wrap_line_count_mono (fun s => s.length) "a b c" 1 5
    (fun s t => by show t.length ≤ (s ++ t).length; rw [String.length_append]; omega)
    (by decide)

/-! ### Claim C1: the PDF grid counts -/

/-- The claim as stated is false: `generate_pdf` clamps both counts to a
minimum of one, so for a 300×300 mm label on A4 paper with 1 mm margins
and 1 mm spacing the code yields one column while the claimed formula
`floor((usable + spacing)/(label + spacing))` yields zero. -/
theorem generate_pdf_grid_counterexample :
    (generate_pdf (300, 300) (210, 297) ⟨1, 1, 1, 1⟩ 1 ⟨1, 1, 1, 1⟩ false false).cols = 1 ∧
    ⌊((210 : ℚ) - 1 - 1 + 1) / (300 + 1)⌋ = 0 ∧ (1 : ℤ) ≠ 0 := by
  refine ⟨?_, by norm_num, by decide⟩
  norm_num [generate_pdf, mm_unit]

/-- C1 (amended): for every label size, paper size, margins and spacing,
the grid of `generate_pdf` has
`cols = max 1 (floor ((usable_w + spacing)/(label_w + spacing)))` and
`rows = max 1 (floor ((usable_h + spacing)/(label_h + spacing)))`, the
usable extent being paper minus the two margins of that axis (the
point/millimeter unit conversion cancels inside the ratio); in
particular label 38×100 mm on A4 with 1 mm margins and 1 mm spacing
gives 5 columns by 2 rows, i.e. 10 placements. -/
theorem generate_pdf_grid_formula :
    (∀ (label paper : ℚ × ℚ) (m : Margins) (sp : ℚ) (pad : Margins),
      (generate_pdf label paper m sp pad false false).cols =
        max 1 ⌊(paper.1 - m.left - m.right + sp) / (label.1 + sp)⌋ ∧
      (generate_pdf label paper m sp pad false false).rows =
        max 1 ⌊(paper.2 - m.top - m.bottom + sp) / (label.2 + sp)⌋) ∧
    (generate_pdf (38, 100) (210, 297) ⟨1, 1, 1, 1⟩ 1 ⟨1, 1, 1, 1⟩ false false).cols = 5 ∧
    (generate_pdf (38, 100) (210, 297) ⟨1, 1, 1, 1⟩ 1 ⟨1, 1, 1, 1⟩ false false).rows = 2 := by
  have hk : mm_unit ≠ 0 := by norm_num [mm_unit]
  refine ⟨fun label paper m sp pad => ⟨?_, ?_⟩, ?_, ?_⟩
  · simp only [generate_pdf, Bool.false_eq_true, if_false]
    congr 2
    rw [show paper.1 * mm_unit - m.left * mm_unit - m.right * mm_unit + sp * mm_unit =
        (paper.1 - m.left - m.right + sp) * mm_unit by ring,
      show label.1 * mm_unit + sp * mm_unit = (label.1 + sp) * mm_unit by ring,
      mul_div_mul_right _ _ hk]
  · simp only [generate_pdf, Bool.false_eq_true, if_false]
    congr 2
    rw [show paper.2 * mm_unit - m.top * mm_unit - m.bottom * mm_unit + sp * mm_unit =
        (paper.2 - m.top - m.bottom + sp) * mm_unit by ring,
      show label.2 * mm_unit + sp * mm_unit = (label.2 + sp) * mm_unit by ring,
      mul_div_mul_right _ _ hk]
  · norm_num [generate_pdf, mm_unit]
  · norm_num [generate_pdf, mm_unit]

/-! ### Claim C5: always at least one placement -/

/-- C5: for every positive label size and positive paper size — including
when the label exceeds the usable area — and any margins, spacing,
padding, orientations and preview size, both `generate_pdf` and
`generate_pdf_preview` produce at least one column and one row, so at
least one placement is rendered. -/
theorem grid_at_least_one (label paper : ℚ × ℚ) (m : Margins) (sp : ℚ)
    (pad : Margins) (lo po : Bool) (mx : ℚ)
    (hlw : 0 < label.1) (hlh : 0 < label.2) (hpw : 0 < paper.1) (hph : 0 < paper.2) :
    1 ≤ (generate_pdf label paper m sp pad lo po).cols ∧
    1 ≤ (generate_pdf label paper m sp pad lo po).rows ∧
    1 ≤ (generate_pdf_preview label paper m sp pad lo mx po).cols ∧
    1 ≤ (generate_pdf_preview label paper m sp pad lo mx po).rows := by
  refine ⟨?_, ?_, ?_, ?_⟩ <;>
    simp only [generate_pdf, generate_pdf_preview] <;>
    exact le_max_left _ _

/-- Witness for C5 at the 38×100 mm label on A4. -/
theorem grid_at_least_one_witness :
    1 ≤ (generate_pdf (38, 100) (210, 297) ⟨1, 1, 1, 1⟩ 1 ⟨1, 1, 1, 1⟩ false false).cols ∧
    1 ≤ (generate_pdf (38, 100) (210, 297) ⟨1, 1, 1, 1⟩ 1 ⟨1, 1, 1, 1⟩ false false).rows ∧
    1 ≤ (generate_pdf_preview (38, 100) (210, 297) ⟨1, 1, 1, 1⟩ 1 ⟨1, 1, 1, 1⟩
          false 900 false).cols ∧
    1 ≤ (generate_pdf_preview (38, 100) (210, 297) ⟨1, 1, 1, 1⟩ 1 ⟨1, 1, 1, 1⟩
          false 900 false).rows :=
  grid_at_least_one (38, 100) (210, 297) ⟨1, 1, 1, 1⟩ 1 ⟨1, 1, 1, 1⟩ false false 900
    (by norm_num) (by norm_num) (by norm_num) (by norm_num)

/-! ### Claim C4: preview and PDF place rows in the same order -/

/-- C4: the bitmap preview puts the cell of column `c`, row `r` at
`x = margin_left + c*(label_w + spacing)`,
`y = margin_top + r*(label_h + spacing)` in preview pixels measured from
the top-left (rows grow downward), while `generate_pdf` puts the same
cell at `y = page_h - margin_top - label_h - r*(label_h + spacing)` in
bottom-up PDF points; converting the PDF ordinate to a top-down offset
(`page_h - (y + label_h)`) yields exactly
`margin_top + r*(label_h + spacing)` — the same position formula as the
preview, in points instead of pixels — so both renderings place rows in
the same top-to-bottom order. -/
theorem placement_axis_correspondence (label paper : ℚ × ℚ) (m : Margins)
    (sp : ℚ) (pad : Margins) (lo po : Bool) (mx : ℚ) (r c : ℤ) :
    let lw : ℚ := if lo then label.2 else label.1
    let lh : ℚ := if lo then label.1 else label.2
    let pw : ℚ := if po then paper.2 else paper.1
    let ph : ℚ := if po then paper.1 else paper.2
    let s : ℚ := previewScale pw ph mx
    ((generate_pdf_preview label paper m sp pad lo mx po).cellX c =
        mmToPx s m.left + c * (mmToPx s lw + mmToPx s sp)) ∧
    ((generate_pdf_preview label paper m sp pad lo mx po).cellY r =
        mmToPx s m.top + r * (mmToPx s lh + mmToPx s sp)) ∧
    ((generate_pdf label paper m sp pad lo po).cellY r =
        ph * mm_unit - m.top * mm_unit - lh * mm_unit - r * (lh * mm_unit + sp * mm_unit)) ∧
    (ph * mm_unit - ((generate_pdf label paper m sp pad lo po).cellY r + lh * mm_unit) =
        m.top * mm_unit + r * (lh * mm_unit + sp * mm_unit)) := by
  intro lw lh pw ph s
  refine ⟨?_, ?_, ?_, ?_⟩
  · simp only [generate_pdf_preview]
  · simp only [generate_pdf_preview]
  · simp only [generate_pdf]
  · simp only [generate_pdf]
    ring

/-! ### Rounding bounds -/

lemma roundEven_bounds (x : ℚ) :
    x - 1/2 ≤ (roundEven x : ℚ) ∧ (roundEven x : ℚ) ≤ x + 1/2 := by
  have h1 : (⌊x⌋ : ℚ) ≤ x := Int.floor_le x
  have h2 : x < ⌊x⌋ + 1 := Int.lt_floor_add_one x
  simp only [roundEven]
  split_ifs with ha hb hc <;> constructor <;> push_cast <;> linarith

lemma round1_bounds (x : ℚ) : x - 1/20 ≤ round1 x ∧ round1 x ≤ x + 1/20 := by
  obtain ⟨h1, h2⟩ := roundEven_bounds (10 * x)
  unfold round1
  constructor <;> linarith

/-! ### Claim C2: auto-fit output bounds -/

/-- The claim as stated is false: with a 480×480 px composed image
(natural size 131 mm per axis) on 10×10 mm paper with 1 mm margins and
4 mm spacing, the usable width minus spacing is 4 mm but the code's
5 mm clamp floor wins, so the returned width is 5 mm, exceeding
`usable_width - spacing`. -/
theorem autofit_bounds_counterexample :
    (compute_label_mm_from_composed ⟨480, 480⟩ (10, 10) ⟨1, 1, 1, 1⟩ 4 false).1 = 5 ∧
    ¬ ((compute_label_mm_from_composed ⟨480, 480⟩ (10, 10) ⟨1, 1, 1, 1⟩ 4 false).1 ≤
        (10 : ℚ) - 1 - 1 - 4) := by
  constructor <;> norm_num [compute_label_mm_from_composed, PX_PER_MM, round1, roundEven]

/-- C2 (amended): each auto-fit axis is the one-decimal rounding of the
natural size clamped to at most `max 5 (usable_axis - spacing)`; hence,
up to the 0.05 mm rounding slack, the returned value never exceeds
`max 5 (usable_axis - spacing)` — which is `usable_axis - spacing`
itself whenever that quantity is at least the 5 mm floor — and never
falls below `min natural_axis 5`, so it is below 5 mm only when the
natural size is. -/
theorem autofit_bounds_amended (img : ImgSize) (paper : ℚ × ℚ) (m : Margins)
    (sp : ℚ) (lo : Bool) :
    let w0 : ℚ := if lo then (img.height : ℚ) / PX_PER_MM + 4
      else (img.width : ℚ) / PX_PER_MM + 4
    let h0 : ℚ := if lo then (img.width : ℚ) / PX_PER_MM + 4
      else (img.height : ℚ) / PX_PER_MM + 4
    let uw : ℚ := paper.1 - m.left - m.right
    let uh : ℚ := paper.2 - m.top - m.bottom
    ((compute_label_mm_from_composed img paper m sp lo).1 =
        round1 (min w0 (max 5 (uw - sp)))) ∧
    ((compute_label_mm_from_composed img paper m sp lo).1 ≤ max 5 (uw - sp) + 1/20) ∧
    (min w0 5 - 1/20 ≤ (compute_label_mm_from_composed img paper m sp lo).1) ∧
    ((compute_label_mm_from_composed img paper m sp lo).2 =
        round1 (min h0 (max 5 (uh - sp)))) ∧
    ((compute_label_mm_from_composed img paper m sp lo).2 ≤ max 5 (uh - sp) + 1/20) ∧
    (min h0 5 - 1/20 ≤ (compute_label_mm_from_composed img paper m sp lo).2) := by
  intro w0 h0 uw uh
  have ew : (compute_label_mm_from_composed img paper m sp lo).1 =
      round1 (min w0 (max 5 (uw - sp))) := by
    cases lo <;> rfl
  have eh : (compute_label_mm_from_composed img paper m sp lo).2 =
      round1 (min h0 (max 5 (uh - sp))) := by
    cases lo <;> rfl
  obtain ⟨hwl, hwu⟩ := round1_bounds (min w0 (max 5 (uw - sp)))
  obtain ⟨hhl, hhu⟩ := round1_bounds (min h0 (max 5 (uh - sp)))
  have hwc : min w0 (max 5 (uw - sp)) ≤ max 5 (uw - sp) := min_le_right _ _
  have hhc : min h0 (max 5 (uh - sp)) ≤ max 5 (uh - sp) := min_le_right _ _
  have hwf : min w0 5 ≤ min w0 (max 5 (uw - sp)) :=
    min_le_min (le_refl w0) (le_max_left 5 (uw - sp))
  have hhf : min h0 5 ≤ min h0 (max 5 (uh - sp)) :=
    min_le_min (le_refl h0) (le_max_left 5 (uh - sp))
  rw [ew, eh]
  exact ⟨rfl, by linarith, by linarith, rfl, by linarith, by linarith⟩

/-! ### Claim C6: the auto-fit formula -/

/-- The auto-fit computation exactly as the claim describes it: pixel
dimensions back to millimeters at the active DPI, plus a 4 mm allowance
per axis, axes swapped for a landscape label, then each axis clamped to
the usable page area (paper minus the two margins of that axis) — with
no spacing subtraction, no 5 mm floor and no rounding. -/
def autofit_claimed (img : ImgSize) (paper_mm : ℚ × ℚ) (margins : Margins)
    (landscape : Bool) : ℚ × ℚ :=
  let nw : ℚ := (img.width : ℚ) / PX_PER_MM + 4
  let nh : ℚ := (img.height : ℚ) / PX_PER_MM + 4
  let p := if landscape then (nh, nw) else (nw, nh)
  (min p.1 (paper_mm.1 - margins.left - margins.right),
   min p.2 (paper_mm.2 - margins.top - margins.bottom))

/-- The auto-fit computation as amended: the upper clamp is
`max 5 (usable_axis - spacing)` rather than the full usable area, and
the result is rounded to one decimal place. -/
def autofit_amended (img : ImgSize) (paper_mm : ℚ × ℚ) (margins : Margins)
    (spacing_mm : ℚ) (landscape : Bool) : ℚ × ℚ :=
  let nw : ℚ := (img.width : ℚ) / PX_PER_MM + 4
  let nh : ℚ := (img.height : ℚ) / PX_PER_MM + 4
  let p := if landscape then (nh, nw) else (nw, nh)
  (round1 (min p.1 (max 5 (paper_mm.1 - margins.left - margins.right - spacing_mm))),
   round1 (min p.2 (max 5 (paper_mm.2 - margins.top - margins.bottom - spacing_mm))))

/-- The claim as stated is false: for a 960×480 px image on A4 with 1 mm
margins and 10 mm spacing, clamping to the usable area would give
208 mm width but the code clamps to `usable - spacing` and returns
198 mm. -/
theorem autofit_formula_counterexample :
    (compute_label_mm_from_composed ⟨960, 480⟩ (210, 297) ⟨1, 1, 1, 1⟩ 10 false).1 = 198 ∧
    (autofit_claimed ⟨960, 480⟩ (210, 297) ⟨1, 1, 1, 1⟩ false).1 = 208 ∧
    (198 : ℚ) ≠ 208 := by
  refine ⟨?_, ?_, by norm_num⟩
  · norm_num [compute_label_mm_from_composed, PX_PER_MM, round1, roundEven]
  · norm_num [autofit_claimed, PX_PER_MM]

/-- C6 (amended): the auto-fit computation derives each axis from the
image's pixel size converted to millimeters at the active 96 DPI plus a
fixed 4 mm allowance (axes swapped when the label orientation is
Landscape), clamps it to at most `max 5 (usable_axis - spacing)` — not
to the full usable area — and rounds to one decimal place. -/
theorem autofit_formula_amended (img : ImgSize) (paper : ℚ × ℚ) (m : Margins)
    (sp : ℚ) (lo : Bool) :
    compute_label_mm_from_composed img paper m sp lo =
      autofit_amended img paper m sp lo := by
  cases lo <;> rfl

/-! ### Claim C8: the Generate button guard -/

/-- The claim as stated is false: the guard is `not code_input.strip()`,
so the all-whitespace (hence non-empty) input " " still takes the error
branch and stores no new image, though the claim says every non-empty
input proceeds to compose and store one. -/
theorem generate_guard_counterexample :
    (" " : String) ≠ "" ∧
    generate_label_handler (fun c d => c.length + d.length) " " "desc" none ≠
      (some 5, false) := by
  constructor <;> decide

/-- C8 (amended): generation proceeds only when the code input is
non-blank: when every character of the code input is whitespace (in
particular when it is empty) the handler surfaces the inline error and
leaves the stored composed image unchanged; otherwise it composes a new
label image from the inputs, stores it, and shows no error. -/
theorem generate_guard_amended {α : Type} (compose : String → String → α)
    (code desc : String) (session : Option α) :
    (code.data.all Char.isWhitespace = true →
      generate_label_handler compose code desc session = (session, true)) ∧
    (code.data.all Char.isWhitespace = false →
      generate_label_handler compose code desc session =
        (some (compose code desc), false)) := by
  constructor <;> intro h <;> simp [generate_label_handler, h]

/-- Witness for C8 (amended): the blank input " " keeps the stored image
and reports the error; the input "ab" stores the composed result. -/
theorem generate_guard_amended_witness :
    generate_label_handler (fun c d => c.length + d.length) " " "x" (some 3) =
      (some 3, true) ∧
    generate_label_handler (fun c d => c.length + d.length) "ab" "x" none =
      (some 3, false) :=
  ⟨(generate_guard_amended (fun c d => c.length + d.length) " " "x" (some 3)).1
      (by decide),
   (generate_guard_amended (fun c d => c.length + d.length) "ab" "x" none).2
      (by decide)⟩

end LabelGen
